import Mathlib

/-!
Verification of the XR native-sensor acquisition engine.

This file gives a shallow embedding of the C++ sources of the repository
(`imu_manager.cpp`, `camera_manager.cpp` / `camera_stream` part, `ring_buffer.h`)
and proves properties of the embedded operations.  Machine integers
(`int32_t`, `int64_t`) are modelled as `ℤ`, `double`/`float` arithmetic as `ℚ`,
pointers as `Bool` ("handle is non-null") or `Option ℕ` (pointer identity),
and wall-clock reads (`getBootTimeNs`) as explicit `now` parameters.
-/

namespace NativeSensor

/-! ## Inertial acquisition engine (`imu_manager.h` / `imu_manager.cpp`)

The statistics window fields (`statsWindowStart_`, `accelCount_`, `gyroCount_`,
`accelLatencyTotal_`, `gyroLatencyTotal_`) are the `statsMutex_`-guarded state;
`running` models the `running_` atomic, `managerValid` models
`sensorManager_ != nullptr`, and `callbackToken` models the stored `callback_`
object (identity only). -/

/-- Embeds the C++ `ImuStats` result struct (`imu_data.h`). -/
structure ImuStats where
  accelFrequencyHz : ℚ
  accelLatencyMs : ℚ
  gyroFrequencyHz : ℚ
  gyroLatencyMs : ℚ
  deriving DecidableEq

/-- Embeds the mutable state of the C++ `ImuManager` class. -/
structure ImuState where
  running : Bool
  managerValid : Bool
  callbackToken : ℕ
  targetAccelHandle : ℤ
  targetGyroHandle : ℤ
  needsSensorSwitch : Bool
  statsWindowStart : ℤ
  accelCount : ℤ
  gyroCount : ℤ
  accelLatencyTotal : ℤ
  gyroLatencyTotal : ℤ
  deriving DecidableEq

/-- `ImuManager::start(callback)`: returns unchanged if already running or if the
platform sensor catalog is unavailable; otherwise stores the callback, resets the
statistics window to `now` and marks the engine running. -/
def ImuManager.start (s : ImuState) (cb : ℕ) (now : ℤ) : ImuState :=
  if s.running then s
  else if !s.managerValid then s
  else
    { s with running := true, callbackToken := cb,
             statsWindowStart := now, accelCount := 0, gyroCount := 0,
             accelLatencyTotal := 0, gyroLatencyTotal := 0 }

/-- `ImuManager::stop()`: no-op when not running, otherwise clears the running flag
(the worker thread is joined synchronously in the source). -/
def ImuManager.stop (s : ImuState) : ImuState :=
  if !s.running then s else { s with running := false }

/-- `ImuManager::switchSensors(accelHandle, gyroHandle)`: records both requested
selectors and the switch flag; if running, performs a stop-then-start cycle with
the previously stored callback.  The C++ function returns `void`: it cannot
report an error to the caller, which the total return type mirrors. -/
def ImuManager.switchSensors (s : ImuState) (accelHandle gyroHandle : ℤ) (now : ℤ) :
    ImuState :=
  let s₁ := { s with targetAccelHandle := accelHandle, targetGyroHandle := gyroHandle,
                     needsSensorSwitch := true }
  if s₁.running then ImuManager.start (ImuManager.stop s₁) s₁.callbackToken now else s₁

/-- Selector resolution performed by `ImuManager::sensorThreadLoop`: a handle in
`[0, sensorCount)` selects `sensorList[handle]`, anything else (including the
unspecified value `-1`) falls back to `ASensorManager_getDefaultSensor`. -/
def ImuManager.resolveSensor {α : Type} (catalog : List α) (handle : ℤ)
    (platformDefault : α) : α :=
  if h : 0 ≤ handle ∧ handle < (catalog.length : ℤ) then
    catalog.get ⟨handle.toNat, by omega⟩
  else platformDefault

/-- Per-event statistics update performed by `ImuManager::drainEvents` for an
accelerometer event with hardware timestamp `ts`, drained at wall-clock `now`. -/
def ImuManager.recordAccelEvent (s : ImuState) (now ts : ℤ) : ImuState :=
  { s with accelCount := s.accelCount + 1,
           accelLatencyTotal := s.accelLatencyTotal + (now - ts) }

/-- Per-event statistics update performed by `ImuManager::drainEvents` for a
gyroscope event with hardware timestamp `ts`, drained at wall-clock `now`. -/
def ImuManager.recordGyroEvent (s : ImuState) (now ts : ℤ) : ImuState :=
  { s with gyroCount := s.gyroCount + 1,
           gyroLatencyTotal := s.gyroLatencyTotal + (now - ts) }

/-- `ImuManager::getStats()`: computes per-channel rate (`count / dtSeconds`, only
when the elapsed window is positive) and mean latency (`latencyTotal / count / 1e6`,
only when the channel saw events), then resets the window start to `now` and zeroes
all counters (read-and-reset semantics). -/
def ImuManager.getStats (s : ImuState) (now : ℤ) : ImuStats × ImuState :=
  let dtSeconds : ℚ := ((now - s.statsWindowStart : ℤ) : ℚ) / 1000000000
  let stats : ImuStats :=
    { accelFrequencyHz := if 0 < dtSeconds then (s.accelCount : ℚ) / dtSeconds else 0
      accelLatencyMs :=
        if 0 < s.accelCount then
          (s.accelLatencyTotal : ℚ) / (s.accelCount : ℚ) / 1000000
        else 0
      gyroFrequencyHz := if 0 < dtSeconds then (s.gyroCount : ℚ) / dtSeconds else 0
      gyroLatencyMs :=
        if 0 < s.gyroCount then
          (s.gyroLatencyTotal : ℚ) / (s.gyroCount : ℚ) / 1000000
        else 0 }
  (stats, { s with statsWindowStart := now, accelCount := 0, gyroCount := 0,
                   accelLatencyTotal := 0, gyroLatencyTotal := 0 })

/-- A concrete idle engine state with a valid sensor catalog. -/
def imuIdle : ImuState :=
  { running := false, managerValid := true, callbackToken := 0,
    targetAccelHandle := -1, targetGyroHandle := -1, needsSensorSwitch := false,
    statsWindowStart := 0, accelCount := 0, gyroCount := 0,
    accelLatencyTotal := 0, gyroLatencyTotal := 0 }

/-- A concrete engine state mid-window: running, with three accelerometer
events and two gyroscope events accumulated since window start 1000. -/
def imuBusy : ImuState :=
  { running := true, managerValid := true, callbackToken := 7,
    targetAccelHandle := -1, targetGyroHandle := -1, needsSensorSwitch := false,
    statsWindowStart := 1000, accelCount := 3, gyroCount := 2,
    accelLatencyTotal := 6000000, gyroLatencyTotal := 4000000 }

/-! ## Camera session state machine (`camera_stream.h` / camera stream part of
`camera_manager.cpp`)

Native handles are modelled by `Bool` ("pointer is non-null"); the output
surface additionally carries a pointer identity (`Option ℕ`) because restart
behaviour depends on which surface the stream is bound to.  Resource
acquisitions and releases performed against the platform camera service are
recorded in an explicit action trace so that leak-freedom is statable.
Failures of the individual native calls are injected through `CamEnv`. -/

/-- The native resources a `CameraStream` owns. -/
inductive Res where
  | surface
  | device
  | outputTarget
  | captureRequest
  | outputContainer
  | sessionOutput
  | captureSession
  deriving DecidableEq

instance : Fintype Res :=
  ⟨⟨{Res.surface, Res.device, Res.outputTarget, Res.captureRequest,
     Res.outputContainer, Res.sessionOutput, Res.captureSession}, by decide⟩,
   by intro x; cases x <;> decide⟩

/-- One acquire or release call against the platform camera service. -/
inductive Act where
  | acquire : Res → Act
  | release : Res → Act
  deriving DecidableEq

/-- Embeds the mutable state of the C++ `CameraStream` class. -/
structure CamState where
  streaming : Bool
  currentCameraId : String
  cameraDevice : Bool
  captureSession : Bool
  outputContainer : Bool
  sessionOutput : Bool
  outputTarget : Bool
  captureRequest : Bool
  surface : Option ℕ
  statsCallbackSet : Bool
  frameCount : ℤ
  droppedFrames : ℤ
  prevFrameTimestampNs : ℤ
  lastFrameRateHz : ℚ
  lastLatencyMs : ℚ
  lastCallbackTimeNs : ℤ
  deriving DecidableEq

/-- The freshly constructed `CameraStream`: not streaming, every handle null,
empty camera id, zeroed statistics. -/
def camInit : CamState :=
  { streaming := false, currentCameraId := "", cameraDevice := false,
    captureSession := false, outputContainer := false, sessionOutput := false,
    outputTarget := false, captureRequest := false, surface := none,
    statsCallbackSet := false, frameCount := 0, droppedFrames := 0,
    prevFrameTimestampNs := 0, lastFrameRateHz := 0, lastLatencyMs := 0,
    lastCallbackTimeNs := 0 }

/-- Whether the stream currently holds resource `r` (its handle is non-null). -/
def CamState.holds (s : CamState) : Res → Bool
  | .surface => s.surface.isSome
  | .device => s.cameraDevice
  | .outputTarget => s.outputTarget
  | .captureRequest => s.captureRequest
  | .outputContainer => s.outputContainer
  | .sessionOutput => s.sessionOutput
  | .captureSession => s.captureSession

/-- `CameraStream::cleanup()`: clears the streaming flag, then releases every
held resource in the source's order (session, device, request, output target,
session output, output container, surface), each release guarded by its own
non-null check, and finally clears the camera id and stats callback.  Returns
the new state together with the emitted release trace. -/
def CameraStream.cleanup (s : CamState) : CamState × List Act :=
  let t : List Act :=
    (if s.captureSession then [Act.release .captureSession] else []) ++
    (if s.cameraDevice then [Act.release .device] else []) ++
    (if s.captureRequest then [Act.release .captureRequest] else []) ++
    (if s.outputTarget then [Act.release .outputTarget] else []) ++
    (if s.sessionOutput then [Act.release .sessionOutput] else []) ++
    (if s.outputContainer then [Act.release .outputContainer] else []) ++
    (if s.surface.isSome then [Act.release .surface] else [])
  ({ s with streaming := false, captureSession := false, cameraDevice := false,
            captureRequest := false, outputTarget := false, sessionOutput := false,
            outputContainer := false, surface := none, currentCameraId := "",
            statsCallbackSet := false }, t)

/-- Outcomes of the fallible native calls issued during `startPreview`
(`true` = the call returned `ACAMERA_OK` with a non-null result). -/
structure CamEnv where
  managerValid : Bool
  openOk : Bool
  targetOk : Bool
  requestOk : Bool
  addTargetOk : Bool
  containerOk : Bool
  sessionOutputOk : Bool
  containerAddOk : Bool
  sessionOk : Bool
  repeatOk : Bool
  deriving DecidableEq

/-- Environment in which every native call succeeds. -/
def envAllOk : CamEnv :=
  { managerValid := true, openOk := true, targetOk := true, requestOk := true,
    addTargetOk := true, containerOk := true, sessionOutputOk := true,
    containerAddOk := true, sessionOk := true, repeatOk := true }

set_option maxHeartbeats 1000000 in
/-- The acquisition sequence of `CameraStream::startPreview` from the
`manager_.isValid()` check onward (the part of the source following the
already-streaming checks): acquires the surface, resets the per-start
statistics, then opens the device, creates the output target, the capture
request, attaches the target, creates the container, the session output, adds
it to the container, creates the capture session and issues the repeating
request; any failing step runs `cleanup()` and returns `false`. -/
def CameraStream.startAcquire (s₁ : CamState) (env : CamEnv) (cameraId : String)
    (surface : Option ℕ) (cb : Bool) : Bool × CamState × List Act :=
  if env.managerValid = false then (false, s₁, [])
  else
    match surface with
    | none => (false, s₁, [])
    | some surf =>
      let s₂ := { s₁ with surface := some surf, statsCallbackSet := cb,
                          currentCameraId := cameraId, frameCount := 0,
                          droppedFrames := 0, prevFrameTimestampNs := 0,
                          lastFrameRateHz := 0, lastLatencyMs := 0,
                          lastCallbackTimeNs := 0 }
      let t₂ : List Act := [Act.acquire .surface]
      if env.openOk = false then
        let c := CameraStream.cleanup s₂
        (false, c.1, t₂ ++ c.2)
      else
        let s₃ := { s₂ with cameraDevice := true }
        let t₃ := t₂ ++ [Act.acquire .device]
        if env.targetOk = false then
          let c := CameraStream.cleanup s₃
          (false, c.1, t₃ ++ c.2)
        else
          let s₄ := { s₃ with outputTarget := true }
          let t₄ := t₃ ++ [Act.acquire .outputTarget]
          if env.requestOk = false then
            let c := CameraStream.cleanup s₄
            (false, c.1, t₄ ++ c.2)
          else
            let s₅ := { s₄ with captureRequest := true }
            let t₅ := t₄ ++ [Act.acquire .captureRequest]
            if env.addTargetOk = false then
              let c := CameraStream.cleanup s₅
              (false, c.1, t₅ ++ c.2)
            else if env.containerOk = false then
              let c := CameraStream.cleanup s₅
              (false, c.1, t₅ ++ c.2)
            else
              let s₆ := { s₅ with outputContainer := true }
              let t₆ := t₅ ++ [Act.acquire .outputContainer]
              if env.sessionOutputOk = false then
                let c := CameraStream.cleanup s₆
                (false, c.1, t₆ ++ c.2)
              else
                let s₇ := { s₆ with sessionOutput := true }
                let t₇ := t₆ ++ [Act.acquire .sessionOutput]
                if env.containerAddOk = false then
                  let c := CameraStream.cleanup s₇
                  (false, c.1, t₇ ++ c.2)
                else if env.sessionOk = false then
                  let c := CameraStream.cleanup s₇
                  (false, c.1, t₇ ++ c.2)
                else
                  let s₈ := { s₇ with captureSession := true }
                  let t₈ := t₇ ++ [Act.acquire .captureSession]
                  if env.repeatOk = false then
                    let c := CameraStream.cleanup s₈
                    (false, c.1, t₈ ++ c.2)
                  else
                    (true, { s₈ with streaming := true }, t₈)

/-- `CameraStream::startPreview(cameraId, surface, statsCallback)`: returns
`true` immediately when already streaming the same camera id (the source does
not compare the surface); when streaming a different id it first runs a full
`cleanup()`; then performs the acquisition sequence `startAcquire`. -/
def CameraStream.startPreview (s : CamState) (env : CamEnv) (cameraId : String)
    (surface : Option ℕ) (cb : Bool) : Bool × CamState × List Act :=
  if s.streaming = true ∧ s.currentCameraId = cameraId then (true, s, [])
  else
    let p := if s.streaming = true then CameraStream.cleanup s else (s, [])
    let r := CameraStream.startAcquire p.1 env cameraId surface cb
    (r.1, r.2.1, p.2 ++ r.2.2)

/-- `CameraStream::stopPreview()`: no-op when not streaming, otherwise runs the
full `cleanup()`. -/
def CameraStream.stopPreview (s : CamState) : CamState × List Act :=
  if s.streaming = false then (s, []) else CameraStream.cleanup s

/-- `CameraStream::onDeviceDisconnected` notification: only clears the
streaming flag. -/
def CameraStream.onDeviceDisconnected (s : CamState) : CamState :=
  { s with streaming := false }

/-- `CameraStream::onDeviceError` notification: only clears the streaming
flag. -/
def CameraStream.onDeviceError (s : CamState) : CamState :=
  { s with streaming := false }

/-- `CameraStream::updateStats(timestampNs)` run at wall-clock `now`: increments
the frame counter; when a previous hardware timestamp is present (`> 0`) and the
new one is later, stores the instantaneous rate `1 / intervalSeconds`; always
stores the new timestamp as previous; when the timestamp is positive and behind
`now`, stores the latency `(now - ts) / 1e6` milliseconds; finally applies the
once-per-second callback throttle bookkeeping. -/
def CameraStream.updateStats (s : CamState) (now ts : ℤ) : CamState :=
  let s₁ := { s with frameCount := s.frameCount + 1 }
  let s₂ :=
    if 0 < s₁.prevFrameTimestampNs ∧ s₁.prevFrameTimestampNs < ts then
      { s₁ with lastFrameRateHz :=
          1 / (((ts - s₁.prevFrameTimestampNs : ℤ) : ℚ) / 1000000000) }
    else s₁
  let s₃ := { s₂ with prevFrameTimestampNs := ts }
  let s₄ :=
    if 0 < ts ∧ ts < now then
      { s₃ with lastLatencyMs := ((now - ts : ℤ) : ℚ) / 1000000 }
    else s₃
  if s₄.statsCallbackSet = true ∧ 1000000000 ≤ now - s₄.lastCallbackTimeNs then
    { s₄ with lastCallbackTimeNs := now }
  else s₄

/-- A concrete live stream: camera id `"0"`, bound to surface `1`, all native
handles held.  Used as the explicit input of counterexamples. -/
def demoStreaming : CamState :=
  { streaming := true, currentCameraId := "0", cameraDevice := true,
    captureSession := true, outputContainer := true, sessionOutput := true,
    outputTarget := true, captureRequest := true, surface := some 1,
    statsCallbackSet := false, frameCount := 3, droppedFrames := 0,
    prevFrameTimestampNs := 100, lastFrameRateHz := 30, lastLatencyMs := 5,
    lastCallbackTimeNs := 0 }

/-- Environment in which opening the camera device fails and every other
native call succeeds. -/
def envOpenFail : CamEnv := { envAllOk with openOk := false }

/-- The stream's resource handles are all null and its identity state cleared. -/
def CamState.resourcesCleared (s : CamState) : Prop :=
  s.cameraDevice = false ∧ s.captureSession = false ∧ s.captureRequest = false ∧
  s.outputTarget = false ∧ s.sessionOutput = false ∧ s.outputContainer = false ∧
  s.surface = none ∧ s.currentCameraId = ""

/-! ## Camera registry classification (`camera_manager.cpp`,
`CameraManager::classifyCamera`)

Camera ids are modelled as `List Char` so that case folding and substring
search match the source's `toLower` + `std::string::find`. -/

/-- Embeds the C++ `CameraClusterType` enum (`camera_data.h`). -/
inductive CameraClusterType where
  | Unknown
  | Passthrough
  | Avatar
  | EyeTracking
  | Depth
  deriving DecidableEq

/-- Embeds the C++ `CameraFacing` enum (`camera_data.h`). -/
inductive CameraFacing where
  | Unknown
  | Front
  | Back
  | External
  deriving DecidableEq

/-- Embeds the C++ `CameraInfo` descriptor (`camera_data.h`). -/
structure CameraInfo where
  id : List Char
  facing : CameraFacing
  clusterType : CameraClusterType
  width : ℤ
  height : ℤ
  maxFps : ℤ
  isPhysicalCamera : Bool
  deriving DecidableEq

/-- `std::string::find(needle) != npos`: `needle` occurs as a contiguous
substring of `hay`. -/
def hasSubstr (needle : List Char) : List Char → Bool
  | [] => needle.isEmpty
  | c :: rest => needle.isPrefixOf (c :: rest) || hasSubstr needle rest

/-- The `toLower` helper of `camera_manager.cpp`. -/
def strToLower (s : List Char) : List Char := s.map Char.toLower

/-- The classification threshold `kHighResThreshold = 1920 * 1080`. -/
def kHighResThreshold : ℤ := 1920 * 1080

/-- `CameraManager::classifyCamera`: keyword match on the lower-cased id
(eye/gaze/ir, depth/tof, track/slam), then the resolution threshold, then the
facing-based fallback heuristics exactly as in the source. -/
def CameraManager.classifyCamera (info : CameraInfo) : CameraClusterType :=
  let lowerId := strToLower info.id
  if hasSubstr "eye".toList lowerId || hasSubstr "gaze".toList lowerId ||
     hasSubstr "ir".toList lowerId then
    .EyeTracking
  else if hasSubstr "depth".toList lowerId || hasSubstr "tof".toList lowerId then
    .Depth
  else if hasSubstr "track".toList lowerId || hasSubstr "slam".toList lowerId then
    .Avatar
  else
    let resolution := info.width * info.height
    if kHighResThreshold ≤ resolution then .Passthrough
    else if info.facing = .Front ∧ 0 < resolution then .Avatar
    else if info.facing = .External then .Avatar
    else if 0 < resolution ∧ resolution < kHighResThreshold then .Avatar
    else .Unknown

/-- Classification exactly as claim C6 words it: the same keyword and threshold
stages, but a fallback in which front-facing OR external requires nonzero
resolution to map to Avatar.  Used only to compare against the source
function. -/
def classifyCameraClaimC6 (info : CameraInfo) : CameraClusterType :=
  let lowerId := strToLower info.id
  if hasSubstr "eye".toList lowerId || hasSubstr "gaze".toList lowerId ||
     hasSubstr "ir".toList lowerId then
    .EyeTracking
  else if hasSubstr "depth".toList lowerId || hasSubstr "tof".toList lowerId then
    .Depth
  else if hasSubstr "track".toList lowerId || hasSubstr "slam".toList lowerId then
    .Avatar
  else
    let resolution := info.width * info.height
    if kHighResThreshold ≤ resolution then .Passthrough
    else if (info.facing = .Front ∨ info.facing = .External) ∧ resolution ≠ 0 then
      .Avatar
    else if resolution ≠ 0 then .Avatar
    else .Unknown

/-- Classification as claim C6 amended: external-facing maps to Avatar
regardless of resolution; front-facing still requires nonzero resolution. -/
def classifyCameraAmendedC6 (info : CameraInfo) : CameraClusterType :=
  let lowerId := strToLower info.id
  if hasSubstr "eye".toList lowerId || hasSubstr "gaze".toList lowerId ||
     hasSubstr "ir".toList lowerId then
    .EyeTracking
  else if hasSubstr "depth".toList lowerId || hasSubstr "tof".toList lowerId then
    .Depth
  else if hasSubstr "track".toList lowerId || hasSubstr "slam".toList lowerId then
    .Avatar
  else
    let resolution := info.width * info.height
    if kHighResThreshold ≤ resolution then .Passthrough
    else if (info.facing = .Front ∧ resolution ≠ 0) ∨ info.facing = .External then
      .Avatar
    else if resolution ≠ 0 then .Avatar
    else .Unknown

/-- A zero-resolution external-facing descriptor with a keyword-free id. -/
def extZeroCam : CameraInfo :=
  { id := "x".toList, facing := .External, clusterType := .Unknown,
    width := 0, height := 0, maxFps := 0, isPhysicalCamera := true }

/-- The high-resolution back-facing descriptor of the spec's test vector. -/
def rearCam : CameraInfo :=
  { id := "rear0".toList, facing := .Back, clusterType := .Unknown,
    width := 3840, height := 2160, maxFps := 30, isPhysicalCamera := true }

/-- The low-resolution front-facing tracking descriptor of the spec's test
vector. -/
def trackCam : CameraInfo :=
  { id := "track0".toList, facing := .Front, clusterType := .Unknown,
    width := 640, height := 480, maxFps := 30, isPhysicalCamera := true }

/-! ## Lock-free SPSC ring buffer (`ring_buffer.h`)

`head_`/`tail_` always hold already-masked values in `[0, Capacity)`; the
source masks with `& kMask` where `kMask = Capacity - 1` and `Capacity` is a
power of two (`static_assert`).  The buffer array is modelled as a function
from slot index to element.  The claims concern single-threaded (sequential)
use, so the atomics collapse to plain state. -/

/-- Embeds the C++ `RingBuffer<T, Capacity>` state. -/
structure RingBuffer (α : Type) where
  buf : ℕ → α
  head : ℕ
  tail : ℕ

namespace RingBuffer

variable {α : Type}

/-- The source's `x & kMask` with `kMask = C - 1`. -/
def wrap (C x : ℕ) : ℕ := x &&& (C - 1)

/-- `RingBuffer::push`: returns `false` leaving the buffer unchanged when the
next head position equals the tail (buffer full); otherwise stores the element
at the current head and advances the head. -/
def push (C : ℕ) (b : RingBuffer α) (x : α) : Bool × RingBuffer α :=
  let nextHead := wrap C (b.head + 1)
  if nextHead = b.tail then (false, b)
  else (true, ⟨fun j => if j = b.head then x else b.buf j, nextHead, b.tail⟩)

/-- `RingBuffer::pushOverwrite`: when the next head position equals the tail it
first advances the tail (dropping the oldest element), then always stores the
element at the current head and advances the head. -/
def pushOverwrite (C : ℕ) (b : RingBuffer α) (x : α) : RingBuffer α :=
  let nextHead := wrap C (b.head + 1)
  let newTail := if nextHead = b.tail then wrap C (b.tail + 1) else b.tail
  ⟨fun j => if j = b.head then x else b.buf j, nextHead, newTail⟩

/-- `RingBuffer::pop`: returns `none` when the buffer is empty (tail equals
head); otherwise yields the element at the tail and advances the tail. -/
def pop (C : ℕ) (b : RingBuffer α) : Option (α × RingBuffer α) :=
  if b.tail = b.head then none
  else some (b.buf b.tail, ⟨b.buf, b.head, wrap C (b.tail + 1)⟩)

/-- Indices are in range (the source keeps `head_`/`tail_` masked). -/
def wf (C : ℕ) (b : RingBuffer α) : Prop := b.head < C ∧ b.tail < C

/-- Number of elements currently stored. -/
def count (C : ℕ) (b : RingBuffer α) : ℕ :=
  if b.tail ≤ b.head then b.head - b.tail else b.head + C - b.tail

/-- The stored elements in first-in-first-out order (oldest first). -/
def toList (C : ℕ) (b : RingBuffer α) : List α :=
  (List.range (count C b)).map (fun i => b.buf ((b.tail + i) % C))

/-- A concrete full ring buffer of capacity 4: slots `0,1,2` hold `10,11,12`,
`tail = 0`, `head = 3`, so it stores `C - 1 = 3` elements. -/
def rbFull : RingBuffer ℕ :=
  ⟨fun j => if j = 0 then 10 else if j = 1 then 11 else if j = 2 then 12 else 0, 3, 0⟩

end RingBuffer

/-! ## Theorems -/

/-- C5: calling `start()` while the engine is running is a no-op that changes
nothing (in particular it does not reset the statistics window start or its
counters), while calling `start()` when not running with the sensor catalog
available resets the statistics window (window start set to `now`, all counts
and latency totals zeroed) and makes the engine running. -/
theorem imu_start_noop_when_running_resets_when_idle
    (s : ImuState) (cb : ℕ) (now : ℤ) :
    (s.running = true → ImuManager.start s cb now = s) ∧
    (s.running = false → s.managerValid = true →
      (ImuManager.start s cb now).running = true ∧
      (ImuManager.start s cb now).statsWindowStart = now ∧
      (ImuManager.start s cb now).accelCount = 0 ∧
      (ImuManager.start s cb now).gyroCount = 0 ∧
      (ImuManager.start s cb now).accelLatencyTotal = 0 ∧
      (ImuManager.start s cb now).gyroLatencyTotal = 0) := by
  refine ⟨fun h => ?_, fun h hm => ?_⟩
  · simp [ImuManager.start, h]
  · simp [ImuManager.start, h, hm]

/-- Witness for C5: starting the concrete idle engine at time 42 resets the
window to 42 and marks it running. -/
theorem imu_start_noop_when_running_resets_when_idle_witness :
    (ImuManager.start imuIdle 7 42).running = true ∧
    (ImuManager.start imuIdle 7 42).statsWindowStart = 42 ∧
    (ImuManager.start imuIdle 7 42).accelCount = 0 ∧
    (ImuManager.start imuIdle 7 42).gyroCount = 0 ∧
    (ImuManager.start imuIdle 7 42).accelLatencyTotal = 0 ∧
    (ImuManager.start imuIdle 7 42).gyroLatencyTotal = 0 :=
  (imu_start_noop_when_running_resets_when_idle imuIdle 7 42).2 rfl rfl

/-- C9: a selector handle outside `[0, catalog size)` — including `-1` —
resolves to the platform default sensor for that channel, a handle inside the
range selects the catalog entry at that index, and `switchSensors` (a total
`void` function) records both selectors without any error path. -/
theorem imu_selector_out_of_range_falls_back {α : Type} (catalog : List α)
    (dflt : α) (h : ℤ) (s : ImuState) (a g now : ℤ) :
    (h < 0 ∨ (catalog.length : ℤ) ≤ h →
        ImuManager.resolveSensor catalog h dflt = dflt) ∧
    ImuManager.resolveSensor catalog (-1) dflt = dflt ∧
    (∀ hl : h.toNat < catalog.length, 0 ≤ h →
        ImuManager.resolveSensor catalog h dflt = catalog.get ⟨h.toNat, hl⟩) ∧
    (ImuManager.switchSensors s a g now).targetAccelHandle = a ∧
    (ImuManager.switchSensors s a g now).targetGyroHandle = g := by
  refine ⟨fun hout => ?_, ?_, fun hl hnn => ?_, ?_, ?_⟩
  · rw [ImuManager.resolveSensor, dif_neg]
    omega
  · rw [ImuManager.resolveSensor, dif_neg]
    omega
  · rw [ImuManager.resolveSensor, dif_pos ⟨hnn, by omega⟩]
  · simp only [ImuManager.switchSensors, ImuManager.start, ImuManager.stop]
    split_ifs <;> rfl
  · simp only [ImuManager.switchSensors, ImuManager.start, ImuManager.stop]
    split_ifs <;> rfl

/-- Witness for C9: on the catalog `[10, 20, 30]` the out-of-range handle 5 and
the unspecified handle `-1` yield the default 99 while handle 1 selects 20, and
a switch on the concrete idle state records the requested handles. -/
theorem imu_selector_out_of_range_falls_back_witness :
    ImuManager.resolveSensor [10, 20, 30] 5 99 = 99 ∧
    ImuManager.resolveSensor [10, 20, 30] (-1) 99 = 99 ∧
    ImuManager.resolveSensor [10, 20, 30] 1 99 = 20 ∧
    (ImuManager.switchSensors imuIdle 2 0 5).targetAccelHandle = 2 ∧
    (ImuManager.switchSensors imuIdle 2 0 5).targetGyroHandle = 0 := by
  have h5 := imu_selector_out_of_range_falls_back [10, 20, 30] 99 5 imuIdle 2 0 5
  have h1 := imu_selector_out_of_range_falls_back [10, 20, 30] 99 1 imuIdle 2 0 5
  exact ⟨h5.1 (by decide), h5.2.1,
         (h1.2.2.1 (by decide) (by decide)).trans (by decide), h5.2.2.2.1, h5.2.2.2.2⟩

/-- C4: `getStats` is a consuming read: per channel the rate is
`count / elapsedSeconds` (0 when the elapsed window is zero or negative) and
the mean latency is `latencyTotal / count / 1e6` (0 when the channel had no
events); the read resets the window start to the read time and zeroes all
counts and totals; hence a second consecutive read with no events in between
returns all zeros and its window starts at the first read's time, and with no
events before the first read that read also returns all zeros. -/
theorem imu_getStats_consuming_read (s : ImuState) (now₁ now₂ : ℤ) :
    (now₁ ≤ s.statsWindowStart →
       (ImuManager.getStats s now₁).1.accelFrequencyHz = 0 ∧
       (ImuManager.getStats s now₁).1.gyroFrequencyHz = 0) ∧
    (s.statsWindowStart < now₁ →
       (ImuManager.getStats s now₁).1.accelFrequencyHz =
         (s.accelCount : ℚ) / (((now₁ - s.statsWindowStart : ℤ) : ℚ) / 1000000000) ∧
       (ImuManager.getStats s now₁).1.gyroFrequencyHz =
         (s.gyroCount : ℚ) / (((now₁ - s.statsWindowStart : ℤ) : ℚ) / 1000000000)) ∧
    (s.accelCount = 0 → (ImuManager.getStats s now₁).1.accelLatencyMs = 0) ∧
    (0 < s.accelCount →
       (ImuManager.getStats s now₁).1.accelLatencyMs =
         (s.accelLatencyTotal : ℚ) / (s.accelCount : ℚ) / 1000000) ∧
    (s.gyroCount = 0 → (ImuManager.getStats s now₁).1.gyroLatencyMs = 0) ∧
    (0 < s.gyroCount →
       (ImuManager.getStats s now₁).1.gyroLatencyMs =
         (s.gyroLatencyTotal : ℚ) / (s.gyroCount : ℚ) / 1000000) ∧
    (ImuManager.getStats s now₁).2.statsWindowStart = now₁ ∧
    (ImuManager.getStats s now₁).2.accelCount = 0 ∧
    (ImuManager.getStats s now₁).2.gyroCount = 0 ∧
    (ImuManager.getStats s now₁).2.accelLatencyTotal = 0 ∧
    (ImuManager.getStats s now₁).2.gyroLatencyTotal = 0 ∧
    (ImuManager.getStats (ImuManager.getStats s now₁).2 now₂).1 =
      ImuStats.mk 0 0 0 0 ∧
    (s.accelCount = 0 → s.gyroCount = 0 →
       (ImuManager.getStats s now₁).1 = ImuStats.mk 0 0 0 0) := by
  have hcond : (0 < ((now₁ - s.statsWindowStart : ℤ) : ℚ) / 1000000000) ↔
      s.statsWindowStart < now₁ := by
    rw [lt_div_iff₀ (by norm_num : (0 : ℚ) < 1000000000), zero_mul]
    exact_mod_cast sub_pos
  refine ⟨fun hle => ?_, fun hlt => ?_, fun hz => ?_, fun hp => ?_, fun hz => ?_,
          fun hp => ?_, ?_, ?_, ?_, ?_, ?_, ?_, fun ha hg => ?_⟩
  · have hneg : ¬ (0 < ((now₁ - s.statsWindowStart : ℤ) : ℚ) / 1000000000) := by
      rw [hcond]; omega
    constructor <;>
    · simp only [ImuManager.getStats]
      rw [if_neg hneg]
  · rw [← hcond] at hlt
    constructor <;>
    · simp only [ImuManager.getStats]
      rw [if_pos hlt]
  · simp [ImuManager.getStats, hz]
  · simp [ImuManager.getStats, hp]
  · simp [ImuManager.getStats, hz]
  · simp [ImuManager.getStats, hp]
  · simp [ImuManager.getStats]
  · simp [ImuManager.getStats]
  · simp [ImuManager.getStats]
  · simp [ImuManager.getStats]
  · simp [ImuManager.getStats]
  · simp [ImuManager.getStats]
  · simp [ImuManager.getStats, ha, hg]

/-- Witness for C4: reading the concrete mid-window state at time 1000001000
(one second after its window start) yields rate 3 and mean latency 2 ms on the
accelerometer channel, and an immediate second read returns all zeros over a
window starting at the first read's time. -/
theorem imu_getStats_consuming_read_witness :
    (ImuManager.getStats imuBusy 1000001000).1.accelFrequencyHz = 3 ∧
    (ImuManager.getStats imuBusy 1000001000).1.accelLatencyMs = 2 ∧
    (ImuManager.getStats imuBusy 1000001000).2.statsWindowStart = 1000001000 ∧
    (ImuManager.getStats (ImuManager.getStats imuBusy 1000001000).2 2000001000).1 =
      ImuStats.mk 0 0 0 0 := by
  have h := imu_getStats_consuming_read imuBusy 1000001000 2000001000
  refine ⟨((h.2.1 (by decide)).1).trans (by norm_num [imuBusy]),
          (h.2.2.2.1 (by decide)).trans (by norm_num [imuBusy]),
          h.2.2.2.2.2.2.1, h.2.2.2.2.2.2.2.2.2.2.2.1⟩

/-- C7: `stopPreview` is idempotent: when the stream is not streaming it
performs no native release and leaves the state unchanged, and after any
`stopPreview` a second `stopPreview` performs no native operation and changes
nothing. -/
theorem camera_stopPreview_idempotent (s : CamState) :
    (s.streaming = false → CameraStream.stopPreview s = (s, [])) ∧
    CameraStream.stopPreview (CameraStream.stopPreview s).1 =
      ((CameraStream.stopPreview s).1, []) := by
  have hpost : (CameraStream.stopPreview s).1.streaming = false := by
    by_cases h : s.streaming = false
    · simp [CameraStream.stopPreview, h]
    · simp [CameraStream.stopPreview, h, CameraStream.cleanup]
  refine ⟨fun h => ?_, ?_⟩
  · simp [CameraStream.stopPreview, h]
  · generalize (CameraStream.stopPreview s).1 = x at hpost ⊢
    simp [CameraStream.stopPreview, hpost]

/-- Witness for C7: stopping the freshly constructed (non-streaming) stream
changes nothing and emits no release. -/
theorem camera_stopPreview_idempotent_witness :
    CameraStream.stopPreview camInit = (camInit, []) :=
  (camera_stopPreview_idempotent camInit).1 rfl

/-- Counterexample for C3: on the concrete live stream, a disconnect
notification makes `isStreaming()` false, but the next explicit `stopPreview()`
then returns without performing any release, leaving the capture session (and
every other resource) still held — the claim that it completes the release of
the remaining native resources is false on the code. -/
theorem camera_disconnect_stop_counterexample :
    (CameraStream.onDeviceDisconnected demoStreaming).streaming = false ∧
    CameraStream.stopPreview (CameraStream.onDeviceDisconnected demoStreaming) =
      (CameraStream.onDeviceDisconnected demoStreaming, []) ∧
    (CameraStream.onDeviceDisconnected demoStreaming).captureSession = true ∧
    (CameraStream.onDeviceDisconnected demoStreaming).cameraDevice = true := by
  exact ⟨rfl, by simp [CameraStream.stopPreview, CameraStream.onDeviceDisconnected], rfl, rfl⟩

/-- C3 (amended): a device disconnect or error notification immediately makes
`isStreaming()` false; the next explicit `stopPreview()` after such a
notification is a no-op that performs no release (the source returns early
when not streaming, so the remaining resources are not freed there); every
cleanup release step is independently guarded by its own non-null handle
check, so `cleanup` releases exactly the handles that are held. -/
theorem camera_disconnect_forces_stopped_stop_noop (s : CamState) :
    (CameraStream.onDeviceDisconnected s).streaming = false ∧
    (CameraStream.onDeviceError s).streaming = false ∧
    CameraStream.stopPreview (CameraStream.onDeviceDisconnected s) =
      (CameraStream.onDeviceDisconnected s, []) ∧
    ∀ r : Res, List.count (Act.release r) (CameraStream.cleanup s).2 =
      if s.holds r then 1 else 0 := by
  refine ⟨rfl, rfl, by simp [CameraStream.stopPreview, CameraStream.onDeviceDisconnected], ?_⟩
  have hb : ∀ (c : Bool) (a b : Act),
      List.count a (if c = true then [b] else []) =
        if c = true ∧ b = a then 1 else 0 := by
    intro c a b
    cases c <;> simp [List.count_cons]
  intro r
  simp only [CameraStream.cleanup, List.count_append, hb, List.count_nil]
  cases r <;> simp [CamState.holds]

/-- Counterexample for C2: the concrete stream is live on camera id `"0"`
bound to surface `1`; starting the same id against the different surface `2`
returns `true` immediately, performs no native action, and leaves the stream
bound to the old surface — a silent success against the old target, where the
claim requires a full stop-then-start against the new target. -/
theorem camera_restart_new_target_counterexample :
    (CameraStream.startPreview demoStreaming envAllOk "0" (some 2) false).1 = true ∧
    (CameraStream.startPreview demoStreaming envAllOk "0" (some 2) false).2.1 =
      demoStreaming ∧
    (CameraStream.startPreview demoStreaming envAllOk "0" (some 2) false).2.2 = [] ∧
    demoStreaming.surface = some 1 := by
  refine ⟨?_, ?_, ?_, rfl⟩ <;>
    simp [CameraStream.startPreview, demoStreaming]

/-- C2 (amended): on a stream currently streaming, `startPreview` with the
same camera id returns `true` immediately and changes nothing regardless of
the supplied output target (the source compares only the id); with a
different camera id it performs the full stop (`cleanup`, releasing all held
resources) and only then runs the acquisition sequence from the cleaned
state. -/
theorem camera_start_same_id_noop_else_full_stop
    (s : CamState) (env : CamEnv) (id : String) (surf : Option ℕ) (cb : Bool)
    (hstream : s.streaming = true) :
    (s.currentCameraId = id →
        CameraStream.startPreview s env id surf cb = (true, s, [])) ∧
    (s.currentCameraId ≠ id →
        CameraStream.startPreview s env id surf cb =
          ((CameraStream.startAcquire (CameraStream.cleanup s).1 env id surf cb).1,
           (CameraStream.startAcquire (CameraStream.cleanup s).1 env id surf cb).2.1,
           (CameraStream.cleanup s).2 ++
             (CameraStream.startAcquire (CameraStream.cleanup s).1 env id surf cb).2.2)) := by
  constructor
  · intro h
    simp [CameraStream.startPreview, hstream, h]
  · intro h
    simp [CameraStream.startPreview, hstream, h]

/-- Witness for C2 (amended): restarting the concrete live stream with its own
id `"0"` is an immediate success with no actions; starting id `"1"` instead
first emits the full release trace of the live stream's resources. -/
theorem camera_start_same_id_noop_else_full_stop_witness :
    CameraStream.startPreview demoStreaming envAllOk "0" (some 2) false =
      (true, demoStreaming, []) ∧
    CameraStream.startPreview demoStreaming envAllOk "1" (some 2) false =
      ((CameraStream.startAcquire (CameraStream.cleanup demoStreaming).1 envAllOk
          "1" (some 2) false).1,
       (CameraStream.startAcquire (CameraStream.cleanup demoStreaming).1 envAllOk
          "1" (some 2) false).2.1,
       (CameraStream.cleanup demoStreaming).2 ++
         (CameraStream.startAcquire (CameraStream.cleanup demoStreaming).1 envAllOk
            "1" (some 2) false).2.2) := by
  refine ⟨(camera_start_same_id_noop_else_full_stop demoStreaming envAllOk "0"
            (some 2) false rfl).1 rfl,
          (camera_start_same_id_noop_else_full_stop demoStreaming envAllOk "1"
            (some 2) false rfl).2 (by decide)⟩

/-- C8: on each capture-start notification with positive hardware timestamp
`ts` (the previous stored timestamp being 0 when absent): the frame counter
increases by exactly one; the stored instantaneous rate becomes
`1 / intervalSeconds` exactly when a previous timestamp exists and `ts` is
later, and is untouched on the first notification after a (re)start; the
stored latency becomes `(now - ts)` milliseconds exactly when `now` exceeds
`ts`; both are stored as last-observed values overwriting the previous ones. -/
theorem camera_updateStats_last_observed (s : CamState) (now ts : ℤ)
    (hts : 0 < ts) (hprev : 0 ≤ s.prevFrameTimestampNs) :
    (CameraStream.updateStats s now ts).frameCount = s.frameCount + 1 ∧
    (CameraStream.updateStats s now ts).prevFrameTimestampNs = ts ∧
    (s.prevFrameTimestampNs ≠ 0 → s.prevFrameTimestampNs < ts →
       (CameraStream.updateStats s now ts).lastFrameRateHz =
         1 / (((ts - s.prevFrameTimestampNs : ℤ) : ℚ) / 1000000000)) ∧
    (s.prevFrameTimestampNs = 0 →
       (CameraStream.updateStats s now ts).lastFrameRateHz = s.lastFrameRateHz) ∧
    (s.prevFrameTimestampNs ≠ 0 → ts ≤ s.prevFrameTimestampNs →
       (CameraStream.updateStats s now ts).lastFrameRateHz = s.lastFrameRateHz) ∧
    (ts < now →
       (CameraStream.updateStats s now ts).lastLatencyMs =
         ((now - ts : ℤ) : ℚ) / 1000000) ∧
    (now ≤ ts →
       (CameraStream.updateStats s now ts).lastLatencyMs = s.lastLatencyMs) := by
  refine ⟨?_, ?_, fun h1 h2 => ?_, fun h1 => ?_, fun h1 h2 => ?_,
          fun h1 => ?_, fun h1 => ?_⟩ <;>
  · simp only [CameraStream.updateStats]
    split_ifs <;> simp_all <;> omega

/-- Witness for C8: a notification with timestamp 150 at wall-clock 200000150
on the concrete live stream (previous timestamp 100) bumps the frame count to
4, stores rate `1e9 / 50` and latency `200000000 / 1e6 = 200` ms. -/
theorem camera_updateStats_last_observed_witness :
    (CameraStream.updateStats demoStreaming 200000150 150).frameCount = 4 ∧
    (CameraStream.updateStats demoStreaming 200000150 150).prevFrameTimestampNs = 150 ∧
    (CameraStream.updateStats demoStreaming 200000150 150).lastFrameRateHz = 20000000 ∧
    (CameraStream.updateStats demoStreaming 200000150 150).lastLatencyMs = 200 := by
  have h := camera_updateStats_last_observed demoStreaming 200000150 150
    (by decide) (by decide)
  refine ⟨h.1.trans (by norm_num [demoStreaming]), h.2.1,
          (h.2.2.1 (by decide) (by decide)).trans (by norm_num [demoStreaming]),
          (h.2.2.2.2.2.1 (by decide)).trans (by norm_num)⟩

/-- `cleanup` always leaves the stream with cleared resources and not
streaming, whatever state it starts from. -/
theorem cleanup_clears (s : CamState) :
    (CameraStream.cleanup s).1.resourcesCleared ∧
    (CameraStream.cleanup s).1.streaming = false := by
  simp [CameraStream.cleanup, CamState.resourcesCleared]

/-- The `cleanup` trace consists of releases only. -/
theorem cleanup_no_acquire (s : CamState) (r : Res) :
    List.count (Act.acquire r) (CameraStream.cleanup s).2 = 0 := by
  simp only [CameraStream.cleanup, List.count_append]
  split_ifs <;> simp [List.count_cons]

/-- `cleanup` releases each resource exactly when its handle is held (each
release step checks its own handle for non-null). -/
theorem cleanup_release_count (s : CamState) (r : Res) :
    List.count (Act.release r) (CameraStream.cleanup s).2 =
      if s.holds r then 1 else 0 := by
  have hb : ∀ (c : Bool) (a b : Act),
      List.count a (if c = true then [b] else []) =
        if c = true ∧ b = a then 1 else 0 := by
    intro c a b
    cases c <;> simp [List.count_cons]
  simp only [CameraStream.cleanup, List.count_append, hb, List.count_nil]
  cases r <;> simp [CamState.holds]

/-- When the stream is not streaming, `startPreview` is exactly the
acquisition sequence. -/
theorem startPreview_not_streaming (s : CamState) (env : CamEnv) (id : String)
    (surf : Option ℕ) (cb : Bool) (hstr : s.streaming = false) :
    CameraStream.startPreview s env id surf cb =
      CameraStream.startAcquire s env id surf cb := by
  simp [CameraStream.startPreview, hstr]

/-- When the stream is streaming a different camera id, `startPreview` is the
full stop (`cleanup`) followed by the acquisition sequence from the cleaned
state, with the release trace in front. -/
theorem startPreview_switch (s : CamState) (env : CamEnv) (id : String)
    (surf : Option ℕ) (cb : Bool) (hstream : s.streaming = true)
    (hid : s.currentCameraId ≠ id) :
    CameraStream.startPreview s env id surf cb =
      ((CameraStream.startAcquire (CameraStream.cleanup s).1 env id surf cb).1,
       (CameraStream.startAcquire (CameraStream.cleanup s).1 env id surf cb).2.1,
       (CameraStream.cleanup s).2 ++
         (CameraStream.startAcquire (CameraStream.cleanup s).1 env id surf cb).2.2) := by
  simp [CameraStream.startPreview, hstream, hid]

/-- Any failing acquisition sequence started from a resource-clear,
non-streaming state ends resource-clear and not streaming, with every acquire
in its trace matched by a release. -/
theorem startAcquire_fail_clean (s₁ : CamState) (env : CamEnv) (id : String)
    (surf : Option ℕ) (cb : Bool)
    (hs : s₁.resourcesCleared) (hstr : s₁.streaming = false)
    (hfail : (CameraStream.startAcquire s₁ env id surf cb).1 = false) :
    (CameraStream.startAcquire s₁ env id surf cb).2.1.resourcesCleared ∧
    (CameraStream.startAcquire s₁ env id surf cb).2.1.streaming = false ∧
    ∀ r : Res,
      List.count (Act.acquire r) (CameraStream.startAcquire s₁ env id surf cb).2.2 ≤
        List.count (Act.release r) (CameraStream.startAcquire s₁ env id surf cb).2.2 := by
  obtain ⟨hd, hcs, hcr, hot, hso, hoc, hsf, hid⟩ := hs
  revert hfail
  obtain ⟨mv, b2, b3, b4, b5, b6, b7, b8, b9, b10⟩ := env
  cases mv with
  | false =>
      intro _
      exact ⟨⟨hd, hcs, hcr, hot, hso, hoc, hsf, hid⟩, hstr, fun r => by
        simp [CameraStream.startAcquire]⟩
  | true =>
      cases surf with
      | none =>
          intro _
          exact ⟨⟨hd, hcs, hcr, hot, hso, hoc, hsf, hid⟩, hstr, fun r => by
            simp [CameraStream.startAcquire]⟩
      | some v =>
          cases b2 with
          | false =>
              intro _
              refine ⟨?_, rfl, fun r => ?_⟩
              · simp [CameraStream.startAcquire, CameraStream.cleanup,
                      CamState.resourcesCleared]
              · simp only [CameraStream.startAcquire, CameraStream.cleanup,
                           hd, hcs, hcr, hot, hso, hoc]
                cases r <;> simp [List.count_append, List.count_cons]
          | true =>
              cases b3 with
              | false =>
                  intro _
                  refine ⟨?_, rfl, fun r => ?_⟩
                  · simp [CameraStream.startAcquire, CameraStream.cleanup,
                          CamState.resourcesCleared]
                  · simp only [CameraStream.startAcquire, CameraStream.cleanup,
                               hd, hcs, hcr, hot, hso, hoc]
                    cases r <;> simp [List.count_append, List.count_cons]
              | true =>
                  cases b4 with
                  | false =>
                      intro _
                      refine ⟨?_, rfl, fun r => ?_⟩
                      · simp [CameraStream.startAcquire, CameraStream.cleanup,
                              CamState.resourcesCleared]
                      · simp only [CameraStream.startAcquire, CameraStream.cleanup,
                                   hd, hcs, hcr, hot, hso, hoc]
                        cases r <;> simp [List.count_append, List.count_cons]
                  | true =>
                      cases b5 with
                      | false =>
                          intro _
                          refine ⟨?_, rfl, fun r => ?_⟩
                          · simp [CameraStream.startAcquire, CameraStream.cleanup,
                                  CamState.resourcesCleared]
                          · simp only [CameraStream.startAcquire, CameraStream.cleanup,
                                       hd, hcs, hcr, hot, hso, hoc]
                            cases r <;> simp [List.count_append, List.count_cons]
                      | true =>
                          cases b6 with
                          | false =>
                              intro _
                              refine ⟨?_, rfl, fun r => ?_⟩
                              · simp [CameraStream.startAcquire, CameraStream.cleanup,
                                      CamState.resourcesCleared]
                              · simp only [CameraStream.startAcquire, CameraStream.cleanup,
                                           hd, hcs, hcr, hot, hso, hoc]
                                cases r <;> simp [List.count_append, List.count_cons]
                          | true =>
                              cases b7 with
                              | false =>
                                  intro _
                                  refine ⟨?_, rfl, fun r => ?_⟩
                                  · simp [CameraStream.startAcquire, CameraStream.cleanup,
                                          CamState.resourcesCleared]
                                  · simp only [CameraStream.startAcquire,
                                               CameraStream.cleanup,
                                               hd, hcs, hcr, hot, hso, hoc]
                                    cases r <;> simp [List.count_append, List.count_cons]
                              | true =>
                                  cases b8 with
                                  | false =>
                                      intro _
                                      refine ⟨?_, rfl, fun r => ?_⟩
                                      · simp [CameraStream.startAcquire,
                                              CameraStream.cleanup,
                                              CamState.resourcesCleared]
                                      · simp only [CameraStream.startAcquire,
                                                   CameraStream.cleanup,
                                                   hd, hcs, hcr, hot, hso, hoc]
                                        cases r <;>
                                          simp [List.count_append, List.count_cons]
                                  | true =>
                                      cases b9 with
                                      | false =>
                                          intro _
                                          refine ⟨?_, rfl, fun r => ?_⟩
                                          · simp [CameraStream.startAcquire,
                                                  CameraStream.cleanup,
                                                  CamState.resourcesCleared]
                                          · simp only [CameraStream.startAcquire,
                                                       CameraStream.cleanup,
                                                       hd, hcs, hcr, hot, hso, hoc]
                                            cases r <;>
                                              simp [List.count_append, List.count_cons]
                                      | true =>
                                          cases b10 with
                                          | false =>
                                              intro _
                                              refine ⟨?_, rfl, fun r => ?_⟩
                                              · simp [CameraStream.startAcquire,
                                                      CameraStream.cleanup,
                                                      CamState.resourcesCleared]
                                              · simp only [CameraStream.startAcquire,
                                                           CameraStream.cleanup,
                                                           hd, hcs, hcr, hot, hso, hoc]
                                                cases r <;>
                                                  simp [List.count_append,
                                                        List.count_cons]
                                          | true =>
                                              intro hfalse
                                              simp [CameraStream.startAcquire] at hfalse

/-- C1: whenever `startPreview` fails at any acquisition step (invalid
manager, null surface, device open, output-target creation, capture-request
creation, target attach, container creation, session-output creation,
container add, session creation, or repeating-request submission), it returns
`false`, every resource acquired during the call is matched by a release in
the call's action trace, and the stream is left not streaming with null
device, session, request, target, output, container and surface handles and an
empty camera id.  The hypothesis `hinv` is the state invariant of the
synchronous API (a non-streaming stream holds no resources), which holds for
every state reachable through `startPreview`/`stopPreview`. -/
theorem camera_startPreview_failure_releases_all
    (s : CamState) (env : CamEnv) (id : String) (surf : Option ℕ) (cb : Bool)
    (hinv : s.streaming = false → s.resourcesCleared)
    (hfail : (CameraStream.startPreview s env id surf cb).1 = false) :
    (CameraStream.startPreview s env id surf cb).2.1.resourcesCleared ∧
    (CameraStream.startPreview s env id surf cb).2.1.streaming = false ∧
    ∀ r : Res,
      List.count (Act.acquire r) (CameraStream.startPreview s env id surf cb).2.2 ≤
        List.count (Act.release r) (CameraStream.startPreview s env id surf cb).2.2 := by
  by_cases hstream : s.streaming = true
  · by_cases hid : s.currentCameraId = id
    · exfalso
      simp [CameraStream.startPreview, hstream, hid] at hfail
    · have heq := startPreview_switch s env id surf cb hstream hid
      rw [heq] at hfail ⊢
      have hclean := cleanup_clears s
      have hsa := startAcquire_fail_clean (CameraStream.cleanup s).1 env id surf cb
        hclean.1 hclean.2 hfail
      refine ⟨hsa.1, hsa.2.1, fun r => ?_⟩
      simp only [List.count_append]
      have h0 := cleanup_no_acquire s r
      have h1 := hsa.2.2 r
      omega
  · have hstr : s.streaming = false := by simpa using hstream
    have heq := startPreview_not_streaming s env id surf cb hstr
    rw [heq] at hfail ⊢
    exact startAcquire_fail_clean s env id surf cb (hinv hstr) hstr hfail

/-- Witness for C1: starting the freshly constructed stream when the device
open fails returns `false`, leaves every handle null and the id empty, and the
trace releases everything it acquired. -/
theorem camera_startPreview_failure_releases_all_witness :
    (CameraStream.startPreview camInit envOpenFail "0" (some 1) false).2.1.resourcesCleared ∧
    (CameraStream.startPreview camInit envOpenFail "0" (some 1) false).2.1.streaming =
      false ∧
    ∀ r : Res,
      List.count (Act.acquire r)
          (CameraStream.startPreview camInit envOpenFail "0" (some 1) false).2.2 ≤
        List.count (Act.release r)
          (CameraStream.startPreview camInit envOpenFail "0" (some 1) false).2.2 :=
  camera_startPreview_failure_releases_all camInit envOpenFail "0" (some 1) false
    (fun _ => ⟨rfl, rfl, rfl, rfl, rfl, rfl, rfl, rfl⟩) (by decide)

/-- `hasSubstr` decides contiguous-substring containment (`std::string::find`). -/
theorem hasSubstr_containment_iff (n : List Char) : ∀ h : List Char,
    hasSubstr n h = true ↔ n <:+: h := by
  intro h
  induction h with
  | nil => simp [hasSubstr, List.isEmpty_iff]
  | cons c rest ih =>
      simp [hasSubstr, ih, List.infix_cons_iff]

/-- Counterexample for C6: a zero-resolution external-facing descriptor with a
keyword-free id classifies as Avatar in the source (external facing is matched
before any resolution check) while the claim's fallback, which requires
nonzero resolution for front-or-external, yields Unknown. -/
theorem camera_classify_counterexample :
    CameraManager.classifyCamera extZeroCam = CameraClusterType.Avatar ∧
    classifyCameraClaimC6 extZeroCam = CameraClusterType.Unknown ∧
    CameraManager.classifyCamera extZeroCam ≠ classifyCameraClaimC6 extZeroCam := by
  refine ⟨by decide, by decide, by decide⟩

/-- C6 (amended): for descriptors with nonnegative dimensions,
`classifyCamera` agrees everywhere with the claim's staged classifier once its
fallback is amended so that external-facing maps to Avatar regardless of
resolution (front-facing still requires nonzero resolution); moreover the
spec's concrete vectors hold: the 3840x2160 back-facing `"rear0"` is
Passthrough, the 640x480 front-facing `"track0"` is Avatar, and any descriptor
whose id contains `"eye_ir"` is EyeTracking regardless of resolution. -/
theorem camera_classify_amended (info : CameraInfo)
    (hw : 0 ≤ info.width) (hh : 0 ≤ info.height) :
    CameraManager.classifyCamera info = classifyCameraAmendedC6 info ∧
    CameraManager.classifyCamera rearCam = CameraClusterType.Passthrough ∧
    CameraManager.classifyCamera trackCam = CameraClusterType.Avatar ∧
    (∀ info' : CameraInfo, "eye_ir".toList <:+: info'.id →
        CameraManager.classifyCamera info' = CameraClusterType.EyeTracking) := by
  refine ⟨?_, by decide, by decide, fun info' hinf => ?_⟩
  · have hres : 0 ≤ info.width * info.height := mul_nonneg hw hh
    simp only [CameraManager.classifyCamera, classifyCameraAmendedC6, kHighResThreshold]
    generalize info.width * info.height = r at hres ⊢
    have hiff : (r ≠ 0) ↔ (0 < r) := by omega
    simp only [hiff]
    split_ifs <;> first | rfl | omega | tauto
  · have hmap : ("eye_ir".toList.map Char.toLower) <:+: strToLower info'.id :=
      hinf.map Char.toLower
    have hlow : ("eye_ir".toList.map Char.toLower) = "eye_ir".toList := by decide
    have heye : "eye".toList <:+: strToLower info'.id :=
      List.IsInfix.trans (by decide) (hlow ▸ hmap)
    have hsub : hasSubstr "eye".toList (strToLower info'.id) = true :=
      (hasSubstr_containment_iff _ _).2 heye
    simp only [String.toList] at hsub
    simp [CameraManager.classifyCamera, hsub]

/-- Witness for C6 (amended): at the concrete back-facing 3840x2160 descriptor
the source classifier and the amended claim classifier agree and yield
Passthrough. -/
theorem camera_classify_amended_witness :
    CameraManager.classifyCamera rearCam = classifyCameraAmendedC6 rearCam ∧
    CameraManager.classifyCamera rearCam = CameraClusterType.Passthrough := by
  have h := camera_classify_amended rearCam (by decide) (by decide)
  exact ⟨h.1, h.2.1⟩

namespace RingBuffer

variable {α : Type}

/-- The source's power-of-two masking is reduction modulo the capacity. -/
theorem wrap_eq_mod (k x : ℕ) : wrap (2 ^ k) x = x % 2 ^ k := by
  simp [wrap, Nat.and_pow_two_sub_one_eq_mod]

/-- Successor modulo `C` of an in-range value, as a case split. -/
theorem succ_mod_eq {C : ℕ} (h : ℕ) (hlt : h < C) :
    (h + 1) % C = if h + 1 = C then 0 else h + 1 := by
  split_ifs with he
  · simp [he]
  · exact Nat.mod_eq_of_lt (by omega)

/-- Slot addressing `i ↦ (t + i) % C` is injective below `C`. -/
theorem add_mod_inj {C : ℕ} (t : ℕ) {i j : ℕ} (hi : i < C) (hj : j < C)
    (h : (t + i) % C = (t + j) % C) : i = j := by
  have hm : i % C = j % C := Nat.ModEq.add_left_cancel' t h
  rwa [Nat.mod_eq_of_lt hi, Nat.mod_eq_of_lt hj] at hm

theorem count_lt {C : ℕ} (b : RingBuffer α) (hwf : wf C b) : count C b < C := by
  obtain ⟨hh, ht⟩ := hwf
  simp only [count]
  split_ifs <;> omega

theorem count_le {C : ℕ} (b : RingBuffer α) (hwf : wf C b) :
    count C b ≤ C - 1 := by
  obtain ⟨hh, ht⟩ := hwf
  simp only [count]
  split_ifs <;> omega

theorem length_toList (C : ℕ) (b : RingBuffer α) :
    (toList C b).length = count C b := by
  simp [toList]

/-- One step past the newest element is the head slot. -/
theorem tail_add_count_mod {C : ℕ} (b : RingBuffer α) (hwf : wf C b) :
    (b.tail + count C b) % C = b.head := by
  obtain ⟨hh, ht⟩ := hwf
  simp only [count]
  split_ifs with hle
  · rw [Nat.add_sub_cancel' hle]
    exact Nat.mod_eq_of_lt hh
  · have he : b.tail + (b.head + C - b.tail) = b.head + C := by omega
    rw [he, Nat.add_mod_right]
    exact Nat.mod_eq_of_lt hh

/-- The source's fullness test (`nextHead == tail`) holds exactly when `C - 1`
elements are stored. -/
theorem full_iff {C : ℕ} (b : RingBuffer α) (hwf : wf C b) :
    (b.head + 1) % C = b.tail ↔ count C b = C - 1 := by
  obtain ⟨hh, ht⟩ := hwf
  rw [succ_mod_eq b.head hh]
  simp only [count]
  split_ifs <;> omega

theorem push_count {C : ℕ} (b : RingBuffer α) (x : α) (hwf : wf C b)
    (hc : (b.head + 1) % C ≠ b.tail) :
    count C (RingBuffer.mk (fun j => if j = b.head then x else b.buf j)
        ((b.head + 1) % C) b.tail) = count C b + 1 := by
  obtain ⟨hh, ht⟩ := hwf
  by_cases he : b.head + 1 = C
  · have hm : (b.head + 1) % C = 0 := by rw [he]; exact Nat.mod_self C
    rw [hm] at hc ⊢
    simp only [count]
    split_ifs <;> omega
  · have hm : (b.head + 1) % C = b.head + 1 := Nat.mod_eq_of_lt (by omega)
    rw [hm] at hc ⊢
    simp only [count]
    split_ifs <;> omega

/-- A successful `push` appends the element at the end of the FIFO view. -/
theorem push_toList {C : ℕ} (b : RingBuffer α) (x : α) (hwf : wf C b)
    (hc : (b.head + 1) % C ≠ b.tail) :
    toList C (RingBuffer.mk (fun j => if j = b.head then x else b.buf j)
        ((b.head + 1) % C) b.tail) = toList C b ++ [x] := by
  obtain ⟨hh, ht⟩ := hwf
  have hcnt := push_count b x ⟨hh, ht⟩ hc
  have hmem : (b.tail + count C b) % C = b.head := tail_add_count_mod b ⟨hh, ht⟩
  simp only [toList, hcnt, List.range_succ, List.map_append, List.map_cons,
             List.map_nil]
  congr 1
  · refine List.map_congr_left fun i hi => ?_
    rw [List.mem_range] at hi
    have hicnt : i < C := lt_trans hi (count_lt b ⟨hh, ht⟩)
    have hne : (b.tail + i) % C ≠ b.head := fun he => by
      have : i = count C b :=
        add_mod_inj b.tail hicnt (count_lt b ⟨hh, ht⟩) (he.trans hmem.symm)
      omega
    simp [hne]
  · simp [hmem]

/-- The FIFO head-and-tail decomposition of a nonempty buffer. -/
theorem toList_decomp {C : ℕ} (b : RingBuffer α) (hwf : wf C b)
    (hne : b.tail ≠ b.head) :
    toList C b =
      b.buf b.tail ::
        (List.range (count C b - 1)).map
          (fun i => b.buf ((b.tail + (i + 1)) % C)) := by
  obtain ⟨hh, ht⟩ := hwf
  have hpos : 0 < count C b := by
    simp only [count]
    split_ifs <;> omega
  obtain ⟨n, hn⟩ : ∃ n, count C b = n + 1 := ⟨count C b - 1, by omega⟩
  have hmap : (List.range n).map
        ((fun i => b.buf ((b.tail + i) % C)) ∘ Nat.succ) =
      (List.range n).map (fun i => b.buf ((b.tail + (i + 1)) % C)) :=
    List.map_congr_left fun i _ => by
      simp [Function.comp, Nat.succ_eq_add_one]
  simp only [toList, hn, Nat.add_sub_cancel, List.range_succ_eq_map, List.map_cons,
             List.map_map, hmap, Nat.add_zero, Nat.mod_eq_of_lt ht]

theorem pushOverwrite_full_count {C : ℕ} (b : RingBuffer α) (x : α)
    (hwf : wf C b) (hfull : count C b = C - 1) :
    count C (RingBuffer.mk (fun j => if j = b.head then x else b.buf j)
        b.tail ((b.tail + 1) % C)) = C - 1 := by
  obtain ⟨hh, ht⟩ := hwf
  by_cases he : b.tail + 1 = C
  · have hm : (b.tail + 1) % C = 0 := by rw [he]; exact Nat.mod_self C
    rw [hm]
    simp only [count] at hfull ⊢
    split_ifs at hfull ⊢ <;> omega
  · have hm : (b.tail + 1) % C = b.tail + 1 := Nat.mod_eq_of_lt (by omega)
    rw [hm]
    simp only [count] at hfull ⊢
    split_ifs at hfull ⊢ <;> omega

/-- `pushOverwrite` on a full buffer drops the oldest element and appends the
new one. -/
theorem pushOverwrite_full_toList {C : ℕ} (b : RingBuffer α) (x : α)
    (hwf : wf C b) (hC2 : 2 ≤ C) (hfull : count C b = C - 1) :
    toList C (RingBuffer.mk (fun j => if j = b.head then x else b.buf j)
        b.tail ((b.tail + 1) % C)) = (toList C b).tail ++ [x] := by
  obtain ⟨hh, ht⟩ := hwf
  have hmem : (b.tail + (C - 1)) % C = b.head := by
    have h2 := tail_add_count_mod b ⟨hh, ht⟩
    rwa [hfull] at h2
  have hneq : b.tail ≠ b.head := by
    intro he
    rw [show count C b = 0 from by simp [count, he]] at hfull
    omega
  have hcnt := pushOverwrite_full_count b x ⟨hh, ht⟩ hfull
  have hdec := toList_decomp b ⟨hh, ht⟩ hneq
  rw [hdec, List.tail_cons, hfull]
  have hsplit : C - 1 = (C - 2) + 1 := by omega
  simp only [hcnt, hsplit, Nat.add_sub_cancel, toList, List.range_succ,
             List.map_append, List.map_cons, List.map_nil]
  congr 1
  · refine List.map_congr_left fun i hi => ?_
    rw [List.mem_range] at hi
    have h1 : ((b.tail + 1) % C + i) % C = (b.tail + (i + 1)) % C := by
      rw [Nat.mod_add_mod, Nat.add_assoc, Nat.add_comm 1 i]
    have hne2 : (b.tail + (i + 1)) % C ≠ b.head := fun he => by
      have h3 : i + 1 = C - 1 :=
        add_mod_inj b.tail (by omega) (by omega) (he.trans hmem.symm)
      omega
    simp [h1, hne2]
  · have h1 : ((b.tail + 1) % C + (C - 2)) % C = (b.tail + (C - 1)) % C := by
      rw [Nat.mod_add_mod]
      congr 1
      omega
    simp [h1, hmem]

theorem pop_count {C : ℕ} (b : RingBuffer α) (hwf : wf C b)
    (hne : b.tail ≠ b.head) :
    count C (RingBuffer.mk b.buf b.head ((b.tail + 1) % C)) =
      count C b - 1 := by
  obtain ⟨hh, ht⟩ := hwf
  by_cases he : b.tail + 1 = C
  · have hm : (b.tail + 1) % C = 0 := by rw [he]; exact Nat.mod_self C
    rw [hm]
    simp only [count]
    split_ifs <;> omega
  · have hm : (b.tail + 1) % C = b.tail + 1 := Nat.mod_eq_of_lt (by omega)
    rw [hm]
    simp only [count]
    split_ifs <;> omega

/-- Popping a nonempty buffer advances the tail without touching the slots,
so the remaining FIFO view is the tail of the previous one. -/
theorem pop_toList {C : ℕ} (b : RingBuffer α) (hwf : wf C b)
    (hne : b.tail ≠ b.head) :
    toList C (RingBuffer.mk b.buf b.head ((b.tail + 1) % C)) =
      (List.range (count C b - 1)).map
        (fun i => b.buf ((b.tail + (i + 1)) % C)) := by
  obtain ⟨hh, ht⟩ := hwf
  have hcnt := pop_count b ⟨hh, ht⟩ hne
  simp only [toList, hcnt]
  refine List.map_congr_left fun i hi => ?_
  have h1 : ((b.tail + 1) % C + i) % C = (b.tail + (i + 1)) % C := by
    rw [Nat.mod_add_mod, Nat.add_assoc, Nat.add_comm 1 i]
  simp [h1]

/-- C10: for the SPSC ring buffer with power-of-two capacity `C = 2^k`, in
sequential use: `push` returns `false` leaving the buffer unchanged exactly
when `C - 1` elements are stored (so at most `C - 1` of the `C` slots are ever
occupied), a successful `push` appends at the end of the FIFO view, a
`pushOverwrite` in that same full state (which, holding an oldest element,
requires `C ≥ 2`) discards the oldest element and always stores the new one at
the end, and `pop` returns the stored elements in first-in-first-out order,
failing only on the empty buffer. -/
theorem spsc_fifo_spec {α : Type} (k : ℕ) (b : RingBuffer α) (x : α)
    (hwf : wf (2 ^ k) b) :
    ((push (2 ^ k) b x).1 = false ↔ count (2 ^ k) b = 2 ^ k - 1) ∧
    ((push (2 ^ k) b x).1 = false → (push (2 ^ k) b x).2 = b) ∧
    (toList (2 ^ k) b).length = count (2 ^ k) b ∧
    count (2 ^ k) b ≤ 2 ^ k - 1 ∧
    ((push (2 ^ k) b x).1 = true →
        toList (2 ^ k) (push (2 ^ k) b x).2 = toList (2 ^ k) b ++ [x]) ∧
    (1 ≤ k → count (2 ^ k) b = 2 ^ k - 1 →
        toList (2 ^ k) (pushOverwrite (2 ^ k) b x) =
          (toList (2 ^ k) b).tail ++ [x]) ∧
    (toList (2 ^ k) b = [] → pop (2 ^ k) b = none) ∧
    (∀ (y : α) (ys : List α), toList (2 ^ k) b = y :: ys →
        ∃ b', pop (2 ^ k) b = some (y, b') ∧ toList (2 ^ k) b' = ys) := by
  have hfalse_iff : (push (2 ^ k) b x).1 = false ↔
      (b.head + 1) % 2 ^ k = b.tail := by
    by_cases hc : (b.head + 1) % 2 ^ k = b.tail <;>
      simp [push, wrap_eq_mod, hc]
  refine ⟨?_, ?_, length_toList _ b, count_le b hwf, ?_, ?_, ?_, ?_⟩
  · rw [hfalse_iff]
    exact full_iff b hwf
  · intro hf
    rw [hfalse_iff] at hf
    simp [push, wrap_eq_mod, hf]
  · intro hsucc
    by_cases hc : (b.head + 1) % 2 ^ k = b.tail
    · rw [hfalse_iff.2 hc] at hsucc
      simp at hsucc
    · have hp : push (2 ^ k) b x =
          (true, RingBuffer.mk (fun j => if j = b.head then x else b.buf j)
            ((b.head + 1) % 2 ^ k) b.tail) := by
        simp [push, wrap_eq_mod, hc]
      rw [hp]
      exact push_toList b x hwf hc
  · intro hk hfull
    have hc : (b.head + 1) % 2 ^ k = b.tail := (full_iff b hwf).2 hfull
    have hC2 : 2 ≤ 2 ^ k := by
      calc (2 : ℕ) = 2 ^ 1 := (pow_one 2).symm
      _ ≤ 2 ^ k := Nat.pow_le_pow_right (by norm_num) hk
    have hp : pushOverwrite (2 ^ k) b x =
        RingBuffer.mk (fun j => if j = b.head then x else b.buf j)
          b.tail ((b.tail + 1) % 2 ^ k) := by
      simp [pushOverwrite, wrap_eq_mod, hc]
    rw [hp]
    exact pushOverwrite_full_toList b x hwf hC2 hfull
  · intro he
    have hl := length_toList (2 ^ k) b
    rw [he] at hl
    have hteq : b.tail = b.head := by
      obtain ⟨hh, ht⟩ := hwf
      simp only [List.length_nil] at hl
      simp only [count] at hl
      split_ifs at hl <;> omega
    simp [pop, hteq]
  · intro y ys htl
    have hneq : b.tail ≠ b.head := by
      intro he
      have h0 : toList (2 ^ k) b = [] := by
        simp [toList, show count (2 ^ k) b = 0 from by simp [count, he]]
      rw [h0] at htl
      exact List.noConfusion htl
    have hdec := toList_decomp b hwf hneq
    rw [htl] at hdec
    simp only [List.cons.injEq] at hdec
    obtain ⟨hy, hys⟩ := hdec
    refine ⟨RingBuffer.mk b.buf b.head ((b.tail + 1) % 2 ^ k), ?_, ?_⟩
    · simp [pop, hneq, hy, wrap_eq_mod]
    · exact (pop_toList b hwf hneq).trans hys.symm

/-- Witness for C10: capacity `4 = 2^2`, full concrete buffer `[10, 11, 12]`:
`push` fails, `pushOverwrite` yields `[11, 12, 99]` (oldest dropped, new
stored), and `pop` yields the oldest element 10 leaving `[11, 12]`. -/
theorem spsc_fifo_spec_witness :
    (push (2 ^ 2) rbFull 99).1 = false ∧
    count (2 ^ 2) rbFull = 3 ∧
    toList (2 ^ 2) rbFull = [10, 11, 12] ∧
    toList (2 ^ 2) (pushOverwrite (2 ^ 2) rbFull 99) = [11, 12, 99] ∧
    ∃ b', pop (2 ^ 2) rbFull = some (10, b') ∧ toList (2 ^ 2) b' = [11, 12] := by
  have h := spsc_fifo_spec 2 rbFull 99 ⟨by decide, by decide⟩
  refine ⟨h.1.2 (by decide), by decide, by decide, ?_, ?_⟩
  · have h2 := h.2.2.2.2.2.1 (by decide) (by decide)
    rw [h2]
    decide
  · exact h.2.2.2.2.2.2.2 10 [11, 12] (by decide)

end RingBuffer

end NativeSensor


